import Mathlib

set_option maxHeartbeats 4000000
set_option maxRecDepth 4000

/-!
Verification development for the Hailstorm resource-pack container engine
(`hailstorm_operations.cxx` and the public headers).  The C++ code is shallowly
embedded: buffers are byte functions `Nat → Nat` (each cell a byte value),
machine integers are `Nat` with explicit `% 2^w` where the source truncates,
`size_t` subtraction that may wrap is modelled with an explicit wrapping
subtraction, and the coroutine emitter's early abort is `Option`.
-/

namespace Hailstorm

/-- Result codes mirroring `hailstorm::Result`. -/
inductive Result where
  | Success
  | E_InvalidArgument
  | E_InvalidPackData
  | E_IncompleteHeaderData
  | E_IncompatiblePackData
  | E_LargePackNotSupported
  | E_EmptyPack
deriving DecidableEq

/-- Magic constant `'ISHS'` (GCC multi-character literal value). -/
def Constant_HailstormMagic : Nat := 0x49534853

/-- Header version constant `'HSC0'`. -/
def Constant_HailstormHeaderVersionV0 : Nat := 0x48534330

/-- One gibibyte. -/
def Constant_1GiB : Nat := 1024 * 1024 * 1024

/-- Sentinel `UINT32_MAX` used by the metadata tracker. -/
def Constant_U32Max : Nat := 2 ^ 32 - 1

/-- Little-endian byte `i` of the integer `v`. -/
def leByte (v i : Nat) : Nat := v / 256 ^ i % 256

/-- Read a `k`-byte little-endian integer from buffer `b` at position `p`.
Cells are reduced mod 256 since they stand for bytes. -/
def readLE (b : Nat → Nat) (p : Nat) : Nat → Nat
  | 0 => 0
  | k + 1 => b p % 256 + 256 * readLE b (p + 1) k

/-- Overwrite `len` bytes of `buf` starting at `off` with the bytes of `src`
(`src` is indexed from 0).  This is the shape of every positioned write of the
synchronous data writer. -/
def writeBytes (buf : Nat → Nat) (off len : Nat) (src : Nat → Nat) : Nat → Nat :=
  fun i => if off ≤ i ∧ i < off + len then src (i - off) else buf i

/-- Wrapping 64-bit subtraction: the value of `a - b` computed in `size_t`. -/
def wsub64 (a b : Nat) : Nat := (a % 2 ^ 64 + (2 ^ 64 - b % 2 ^ 64)) % 2 ^ 64

/-- The `alignment - 1` mask computed in `uint32_t` (wraps when `alignment = 0`),
as in the source's `align_to` template. -/
def align_mask (a : Nat) : Nat := (a + (2 ^ 32 - 1)) % 2 ^ 32

/-- The source's `align_to` template instantiated at `T = size_t`:
`x + ((T{0} - x) & (alignment - 1))`. -/
def align_to64 (x a : Nat) : Nat := x + (((2 ^ 64 - x % 2 ^ 64) % 2 ^ 64) &&& align_mask a)

/-- The source's `align_to` template instantiated at `T = uint32_t`. -/
def align_to32 (x a : Nat) : Nat := x + (((2 ^ 32 - x % 2 ^ 32) % 2 ^ 32) &&& align_mask a)

/-- View over the borrowed path block returned by `read_header`
(`hailstorm::Data`: possibly-null location plus size). -/
structure PathsView where
  isNull : Bool
  offset : Nat
  size : Nat
deriving DecidableEq

/-- The `HailstormHeader` fields that the writer populates with nonzero data
(`version`, flag bits and the `pack_*` fields are always written as zero and
are serialized as zero bytes). -/
structure HailstormHeader where
  magic : Nat
  header_version : Nat
  header_size : Nat
  offset_next : Nat
  offset_data : Nat
  count_chunks : Nat
  count_resources : Nat
  app_custom0 : Nat
  app_custom1 : Nat
deriving DecidableEq

/-- Mirror of `HailstormPaths` (two `uint32_t`). -/
structure HailstormPaths where
  offset : Nat
  size : Nat
deriving DecidableEq

/-- Mirror of `HailstormChunk`.  The `size_origin` field appears in
`hailstorm_operations.cxx` but not in the 32-byte public layout, so it is
carried here and not serialized. -/
structure HailstormChunk where
  offset : Nat
  size : Nat
  align : Nat
  type : Nat
  persistance : Nat
  flags : Nat
  app_custom_value : Nat
  count_entries : Nat
  size_origin : Nat
deriving DecidableEq

/-- Mirror of `HailstormResource` (the fields the emitter writes;
`size_origin` and the compression bytes are left uninitialized by the
emitter and are modelled as absent). -/
structure HailstormResource where
  chunk : Nat
  meta_chunk : Nat
  offset : Nat
  size : Nat
  meta_offset : Nat
  meta_size : Nat
  path_offset : Nat
  path_size : Nat
deriving DecidableEq

/-- Mirror of `HailstormData` as populated by `read_header`; the borrowed
chunk and resource spans are modelled as the decoded record lists. -/
structure HailstormData where
  header : HailstormHeader
  chunks : List HailstormChunk
  resources : List HailstormResource
  paths : HailstormPaths
  paths_data : PathsView
deriving DecidableEq

/-- All-zero header record. -/
def emptyHeader : HailstormHeader := ⟨0, 0, 0, 0, 0, 0, 0, 0, 0⟩

/-- All-zero chunk record (`Constant_EmptyChunk`). -/
def emptyChunk : HailstormChunk := ⟨0, 0, 0, 0, 0, 0, 0, 0, 0⟩

/-- All-zero resource record. -/
def emptyResource : HailstormResource := ⟨0, 0, 0, 0, 0, 0, 0, 0⟩

/-- All-zero `HailstormData`. -/
def emptyHailstormData : HailstormData := ⟨emptyHeader, [], [], ⟨0, 0⟩, ⟨true, 0, 0⟩⟩

/-- Decode a `HailstormHeader` from the 64 header bytes (field offsets follow
the packed C layout: magic@0, version@4, header_size@8, offset_next@16,
offset_data@24, count_chunks@36, count_resources@40, custom values@56). -/
def decodeHeader (b : Nat → Nat) : HailstormHeader :=
  { magic := readLE b 0 4
    header_version := readLE b 4 4
    header_size := readLE b 8 8
    offset_next := readLE b 16 8
    offset_data := readLE b 24 8
    count_chunks := readLE b 36 4
    count_resources := readLE b 40 4
    app_custom0 := readLE b 56 4
    app_custom1 := readLE b 60 4 }

/-- Decode a `HailstormPaths` record at byte position `p`. -/
def decodePaths (b : Nat → Nat) (p : Nat) : HailstormPaths :=
  { offset := readLE b p 4, size := readLE b (p + 4) 4 }

/-- Decode a 32-byte `HailstormChunk` record at byte position `p`
(bitfield byte at offset 20: type bits 0-1, persistance 2-3, flags 4-7). -/
def decodeChunk (b : Nat → Nat) (p : Nat) : HailstormChunk :=
  { offset := readLE b p 8
    size := readLE b (p + 8) 8
    align := readLE b (p + 16) 4
    type := b (p + 20) % 4
    persistance := b (p + 20) / 4 % 4
    flags := b (p + 20) / 16 % 16
    app_custom_value := readLE b (p + 24) 4
    count_entries := readLE b (p + 28) 4
    size_origin := 0 }

/-- Decode a 36-byte `HailstormResource` record at byte position `p`. -/
def decodeResource (b : Nat → Nat) (p : Nat) : HailstormResource :=
  { chunk := readLE b p 4
    meta_chunk := readLE b (p + 4) 4
    offset := readLE b (p + 8) 4
    size := readLE b (p + 12) 4
    meta_offset := readLE b (p + 20) 4
    meta_size := readLE b (p + 24) 4
    path_offset := readLE b (p + 28) 4
    path_size := readLE b (p + 32) 2 }

/-- The chunk table starts at byte 72 (64-byte header plus 8-byte paths
record); chunk `i` sits at `72 + 32 * i`. -/
def decodeChunks (b : Nat → Nat) (count : Nat) : List HailstormChunk :=
  (List.range count).map fun i => decodeChunk b (72 + 32 * i)

/-- The resource table immediately follows the chunk table. -/
def decodeResources (b : Nat → Nat) (base count : Nat) : List HailstormResource :=
  (List.range count).map fun i => decodeResource b (base + 36 * i)

/-- Shallow embedding of `read_header`.  The input `hailstorm::Data` is a
null flag, a size and a byte function; the output parameter is threaded
explicitly, so the second component records exactly the mutations the C++
function performs on `out_hailstorm`. -/
def read_header (isNull : Bool) (size : Nat) (b : Nat → Nat) (out0 : HailstormData) :
    Result × HailstormData :=
  if isNull = true ∨ size < 16 then (Result.E_InvalidPackData, out0)
  else if size < 16 then (Result.E_IncompleteHeaderData, out0)
  else if readLE b 0 4 ≠ Constant_HailstormMagic ∨
      readLE b 4 4 ≠ Constant_HailstormHeaderVersionV0 ∨
      Constant_1GiB ≤ readLE b 8 8 then (Result.E_InvalidPackData, out0)
  else if size < readLE b 8 8 then (Result.E_IncompleteHeaderData, out0)
  else if (decodeHeader b).count_chunks = 0 then
    (Result.E_EmptyPack, { out0 with header := decodeHeader b })
  else if 2 ^ 64 - 1 -
      ((decodeChunks b (decodeHeader b).count_chunks).getLastD emptyChunk).offset <
      ((decodeChunks b (decodeHeader b).count_chunks).getLastD emptyChunk).size then
    (Result.E_LargePackNotSupported,
      { out0 with
        header := decodeHeader b
        paths := decodePaths b 64
        chunks := decodeChunks b (decodeHeader b).count_chunks
        resources := decodeResources b (72 + 32 * (decodeHeader b).count_chunks)
          (decodeHeader b).count_resources })
  else
    (Result.Success,
      { out0 with
        header := decodeHeader b
        paths := decodePaths b 64
        chunks := decodeChunks b (decodeHeader b).count_chunks
        resources := decodeResources b (72 + 32 * (decodeHeader b).count_chunks)
          (decodeHeader b).count_resources
        paths_data :=
          if (decodePaths b 64).size ≤
              ((size : Int) - ((72 + 32 * (decodeHeader b).count_chunks +
                36 * (decodeHeader b).count_resources : Nat) : Int)).natAbs then
            PathsView.mk false (decodePaths b 64).offset (decodePaths b 64).size
          else PathsView.mk true 0 0 })

/-- C7 counterexample: a 16-byte input with a wrong magic and `header_size = 100`
has length at least 16 and less than `header_size`, yet `read_header` returns
`E_InvalidPackData`, not `E_IncompleteHeaderData` — the magic check runs first,
so the claimed biconditional for `E_IncompleteHeaderData` fails. -/
theorem c7_incomplete_counterexample :
    (read_header false 16 (fun i => if i = 8 then 100 else 0) emptyHailstormData).1 =
      Result.E_InvalidPackData ∧
    (read_header false 16 (fun i => if i = 8 then 100 else 0) emptyHailstormData).1 ≠
      Result.E_IncompleteHeaderData ∧
    16 ≤ 16 ∧ 16 < readLE (fun i => if i = 8 then 100 else 0) 8 8 := by
  refine ⟨by decide, by decide, by decide, by decide⟩

/-- C7 (amended): `read_header` returns `E_InvalidPackData` exactly when the
input is null, shorter than 16 bytes, or has a magic, header-version or
`header_size ≥ 1 GiB` violation; it returns `E_IncompleteHeaderData` exactly
when none of those hold and the length is below `header_size`; and it returns
`E_EmptyPack` when additionally the length reaches `header_size` and the
decoded `count_chunks` field is zero. -/
theorem c7_read_header_errors (isNull : Bool) (size : Nat) (b : Nat → Nat)
    (out0 : HailstormData) :
    ((read_header isNull size b out0).1 = Result.E_InvalidPackData ↔
      (isNull = true ∨ size < 16 ∨ readLE b 0 4 ≠ Constant_HailstormMagic ∨
       readLE b 4 4 ≠ Constant_HailstormHeaderVersionV0 ∨ Constant_1GiB ≤ readLE b 8 8)) ∧
    ((read_header isNull size b out0).1 = Result.E_IncompleteHeaderData ↔
      (isNull = false ∧ 16 ≤ size ∧ readLE b 0 4 = Constant_HailstormMagic ∧
       readLE b 4 4 = Constant_HailstormHeaderVersionV0 ∧ readLE b 8 8 < Constant_1GiB ∧
       size < readLE b 8 8)) ∧
    ((isNull = false ∧ 16 ≤ size ∧ readLE b 0 4 = Constant_HailstormMagic ∧
      readLE b 4 4 = Constant_HailstormHeaderVersionV0 ∧ readLE b 8 8 < Constant_1GiB ∧
      readLE b 8 8 ≤ size ∧ readLE b 36 4 = 0) →
      (read_header isNull size b out0).1 = Result.E_EmptyPack) := by
  cases isNull <;>
    (unfold read_header; split_ifs <;> simp_all [decodeHeader] <;> omega)

/-- C8 counterexample: a well-formed header prefix with `count_chunks = 0`
makes `read_header` return `E_EmptyPack`, and on that failure path the output
structure has already been mutated (its `header` field was assigned), so the
claim that no failure path mutates the output is false. -/
theorem c8_mutation_counterexample :
    (read_header false 44
      (fun i => if i < 4 then leByte Constant_HailstormMagic i
        else if i < 8 then leByte Constant_HailstormHeaderVersionV0 (i - 4)
        else if i = 8 then 16 else 0) emptyHailstormData).1 = Result.E_EmptyPack ∧
    (read_header false 44
      (fun i => if i < 4 then leByte Constant_HailstormMagic i
        else if i < 8 then leByte Constant_HailstormHeaderVersionV0 (i - 4)
        else if i = 8 then 16 else 0) emptyHailstormData).2 ≠ emptyHailstormData := by
  refine ⟨by decide, by decide⟩

/-- C8 (amended): `read_header` leaves the caller's output structure
completely unchanged on the `E_InvalidPackData` and `E_IncompleteHeaderData`
failure paths (on `E_EmptyPack` and `E_LargePackNotSupported` it has already
assigned fields of the output). -/
theorem c8_no_mutation_on_invalid_incomplete (isNull : Bool) (size : Nat) (b : Nat → Nat)
    (out0 : HailstormData)
    (h : (read_header isNull size b out0).1 = Result.E_InvalidPackData ∨
         (read_header isNull size b out0).1 = Result.E_IncompleteHeaderData) :
    (read_header isNull size b out0).2 = out0 := by
  unfold read_header at h ⊢
  split_ifs at h ⊢ <;> simp_all

/-- C8 witness: the amended no-mutation theorem applied to a null input. -/
theorem c8_no_mutation_witness :
    ((read_header true 0 (fun _ => 0) emptyHailstormData).1 = Result.E_InvalidPackData ∨
     (read_header true 0 (fun _ => 0) emptyHailstormData).1 = Result.E_IncompleteHeaderData) ∧
    (read_header true 0 (fun _ => 0) emptyHailstormData).2 = emptyHailstormData :=
  ⟨Or.inl (by decide), c8_no_mutation_on_invalid_incomplete true 0 (fun _ => 0)
    emptyHailstormData (Or.inl (by decide))⟩

/-- Mirror of `prefixed_resource_paths_size`: current path-block size plus one
prefix per resource (the prefix is a byte list). -/
def prefixed_resource_paths_size (paths_info : HailstormPaths) (count : Nat)
    (pfx : List Nat) : Nat :=
  paths_info.size + count * pfx.length

/-- Backward scan for the byte after the last non-zero byte, starting from
position `n` and reading `paths_end[-1]` at each step.  `none` models the scan
reading below the start of the buffer (undefined behaviour in the source). -/
def findPathsEnd (b : Nat → Nat) : Nat → Option Nat
  | 0 => none
  | n + 1 => if b n = 0 then findPathsEnd b n else some (n + 1)

/-- Write a single byte at (possibly negative) position `p`. -/
def setByteI (buf : Nat → Nat) (p : Int) (v : Nat) : Nat → Nat :=
  fun i => if (i : Int) = p then v else buf i

/-- Model of `memcpy(dest, paths_start + src, len)` within one buffer; the
source bytes are read from the pre-copy buffer, so overlapping copies behave
like a simultaneous copy. -/
def copyWithin (buf : Nat → Nat) (dest : Int) (src len : Nat) : Nat → Nat :=
  fun i => if dest ≤ (i : Int) ∧ (i : Int) < dest + len then
    buf (src + ((i : Int) - dest).toNat) else buf i

/-- Model of `memcpy(dest, prefix.data(), prefix.size())`. -/
def copyList (buf : Nat → Nat) (dest : Int) (xs : List Nat) : Nat → Nat :=
  fun i => if dest ≤ (i : Int) ∧ (i : Int) < dest + xs.length then
    xs.getD ((i : Int) - dest).toNat 0 else buf i

/-- State after running the rewrite loop of `prefix_resource_paths`. -/
structure PrefixLoopResult where
  resources : List HailstormResource
  resource_idx : Nat
  ex_end : Int
  buf : Nat → Nat

/-- The descending rewrite loop of `prefix_resource_paths` (source lines
579-594).  Positions are relative to `paths_start`; the cursor is an `Int`
because the source walks a raw pointer below the block start. -/
def prefix_loop (pfx : List Nat) : Nat → Int → (Nat → Nat) → List HailstormResource →
    PrefixLoopResult
  | 0, ex, buf, rs => ⟨rs, 0, ex, buf⟩
  | idx + 1, ex, buf, rs =>
    if ex ≤ 0 then ⟨rs, idx + 1, ex, buf⟩
    else
      prefix_loop pfx idx
        (ex - (rs.getD idx emptyResource).path_size - pfx.length - 1)
        (copyList
          (copyWithin (setByteI buf ex 0)
            (ex - (rs.getD idx emptyResource).path_size)
            (rs.getD idx emptyResource).path_offset
            (rs.getD idx emptyResource).path_size)
          (ex - (rs.getD idx emptyResource).path_size - pfx.length) pfx)
        (rs.set idx
          { rs.getD idx emptyResource with
            path_offset :=
              (ex - (rs.getD idx emptyResource).path_size - pfx.length).natAbs % 2 ^ 32
            path_size := ((rs.getD idx emptyResource).path_size + pfx.length) % 2 ^ 16 })

/-- Shallow embedding of `prefix_resource_paths`.  Returns `none` when the
backward zero-scan would read before the start of the buffer (undefined in
the source); otherwise `some (returned-bool, updated resources, updated
buffer)`. -/
def prefix_resource_paths (paths_info : HailstormPaths)
    (resources : List HailstormResource) (bufSize : Nat) (buf0 : Nat → Nat)
    (pfx : List Nat) : Option (Bool × List HailstormResource × (Nat → Nat)) :=
  if bufSize < prefixed_resource_paths_size paths_info resources.length pfx then
    some (false, resources, buf0)
  else
    match findPathsEnd buf0 paths_info.size with
    | none => none
    | some pe =>
      let r := prefix_loop pfx resources.length
        ((pe : Int) + resources.length * pfx.length) buf0 resources
      some (decide (r.resource_idx = 0 ∧ r.ex_end + 1 = 0), r.resources, r.buf)

/-- An all-zero region drives the backward scan below the buffer start. -/
theorem findPathsEnd_eq_none (b : Nat → Nat) :
    ∀ n, (∀ j, j < n → b j = 0) → findPathsEnd b n = none := by
  intro n
  induction n with
  | zero => intro _; rfl
  | succ m ih =>
    intro h
    unfold findPathsEnd
    rw [if_pos (h m (Nat.lt_succ_self m))]
    exact ih fun j hj => h j (Nat.lt_succ_of_lt hj)

/-- When the bytes from `pos` up to `n` are zero and the byte just below `pos`
is non-zero, the backward scan stops exactly at `pos`. -/
theorem findPathsEnd_stops (b : Nat → Nat) (pos : Nat) (hpos : 0 < pos)
    (hnz : b (pos - 1) ≠ 0) :
    ∀ n, pos ≤ n → (∀ j, pos ≤ j → j < n → b j = 0) → findPathsEnd b n = some pos := by
  intro n
  induction n with
  | zero => intro h; omega
  | succ m ih =>
    intro hle hz
    unfold findPathsEnd
    rcases Nat.lt_or_ge m pos with hlt | hge
    · have hm : m = pos - 1 := by omega
      rw [hm, if_neg hnz]
      simp only [Option.some.injEq]
      omega
    · rw [if_pos (hz m hge (Nat.lt_succ_self m))]
      exact ih hge fun j hj hjm => hz j hj (Nat.lt_succ_of_lt hjm)

/-- C10: implicit precondition of `prefix_resource_paths` — when the whole
path-block region is zero (and the size check passes so the scan is reached),
the backward scan for the last non-zero byte reads before the start of the
buffer; the embedding returns `none` for this undefined behaviour. -/
theorem c10_allzero_scan_oob (paths_info : HailstormPaths)
    (resources : List HailstormResource) (bufSize : Nat) (buf0 : Nat → Nat)
    (pfx : List Nat)
    (hfits : prefixed_resource_paths_size paths_info resources.length pfx ≤ bufSize)
    (hzero : ∀ j, j < paths_info.size → buf0 j = 0) :
    prefix_resource_paths paths_info resources bufSize buf0 pfx = none := by
  unfold prefix_resource_paths
  rw [if_neg (by omega), findPathsEnd_eq_none buf0 paths_info.size hzero]

/-- C10 witness: a concrete all-zero 8-byte path block. -/
theorem c10_allzero_scan_oob_witness :
    (prefixed_resource_paths_size ⟨0, 8⟩ ([] : List HailstormResource).length [] ≤ 8 ∧
     ∀ j, j < (8 : Nat) → (fun _ => 0 : Nat → Nat) j = 0) ∧
    prefix_resource_paths ⟨0, 8⟩ [] 8 (fun _ => 0) [] = none :=
  ⟨⟨by decide, by decide⟩,
    c10_allzero_scan_oob ⟨0, 8⟩ [] 8 (fun _ => 0) [] (by decide) (by decide)⟩

/-- Start offset of the `i`-th path in a packed NUL-separated path block:
the sum of `path_size + 1` over the previous resources. -/
def packedOffset (rs : List HailstormResource) (i : Nat) : Nat :=
  ((rs.take i).map fun r => r.path_size + 1).sum

theorem getD_set_ne {α : Type} (l : List α) (i j : Nat) (v d : α) (h : i ≠ j) :
    (l.set i v).getD j d = l.getD j d := by
  simp [List.getD, List.getElem?_set_ne h]

theorem getD_set_self {α : Type} (l : List α) (i : Nat) (v d : α) (h : i < l.length) :
    (l.set i v).getD i d = v := by
  simp [List.getD, List.getElem?_set_self h]

theorem packedOffset_zero (rs : List HailstormResource) : packedOffset rs 0 = 0 := rfl

theorem packedOffset_succ (rs : List HailstormResource) (k : Nat) (hk : k < rs.length) :
    packedOffset rs (k + 1) =
      packedOffset rs k + ((rs.getD k emptyResource).path_size + 1) := by
  unfold packedOffset
  rw [List.take_succ, List.map_append, List.sum_append,
    List.getElem?_eq_getElem hk]
  simp [List.getD, List.getElem?_eq_getElem hk]

theorem packedOffset_le_succ (rs : List HailstormResource) (k : Nat) :
    packedOffset rs k ≤ packedOffset rs (k + 1) := by
  rcases Nat.lt_or_ge k rs.length with h | h
  · rw [packedOffset_succ rs k h]; omega
  · unfold packedOffset
    rw [List.take_of_length_le h, List.take_of_length_le (by omega)]

theorem packedOffset_mono (rs : List HailstormResource) {a b : Nat} (h : a ≤ b) :
    packedOffset rs a ≤ packedOffset rs b := by
  induction b with
  | zero => simp_all
  | succ m ih =>
    rcases Nat.lt_or_ge a (m + 1) with h2 | h2
    · exact Nat.le_trans (ih (by omega)) (packedOffset_le_succ rs m)
    · have : a = m + 1 := by omega
      simp [this]

theorem copyList_at (buf : Nat → Nat) (d : Nat) (xs : List Nat) (j : Nat)
    (hj : j < xs.length) : copyList buf (d : Int) xs (d + j) = xs.getD j 0 := by
  unfold copyList
  rw [if_pos (by omega)]
  congr 1
  omega

theorem copyList_out (buf : Nat → Nat) (d : Int) (xs : List Nat) (q : Nat)
    (h : (q : Int) < d ∨ d + xs.length ≤ (q : Int)) : copyList buf d xs q = buf q := by
  unfold copyList
  rw [if_neg (by omega)]

theorem copyWithin_at (buf : Nat → Nat) (d src len j : Nat) (hj : j < len) :
    copyWithin buf (d : Int) src len (d + j) = buf (src + j) := by
  unfold copyWithin
  rw [if_pos (by omega)]
  congr 1
  omega

theorem copyWithin_out (buf : Nat → Nat) (d : Int) (src len : Nat) (q : Nat)
    (h : (q : Int) < d ∨ d + len ≤ (q : Int)) : copyWithin buf d src len q = buf q := by
  unfold copyWithin
  rw [if_neg (by omega)]

theorem setByteI_at (buf : Nat → Nat) (p v : Nat) : setByteI buf (p : Int) v p = v := by
  unfold setByteI
  rw [if_pos rfl]

theorem setByteI_out (buf : Nat → Nat) (p : Int) (v q : Nat) (h : (q : Int) ≠ p) :
    setByteI buf p v q = buf q := by
  unfold setByteI
  rw [if_neg h]

/-- Invariant of the descending rewrite loop of `prefix_resource_paths` over a
packed path block: starting at resource index `k` with the cursor one byte
below the extended region of the first `k` resources, the loop finishes at
index 0 with the cursor at -1, each processed resource is moved to
`old_offset + i·|pfx|` with its size grown by `|pfx|`, its region holds the
prefix, the original bytes and a trailing NUL, and nothing at or above the
entry cursor region is touched. -/
theorem prefix_loop_spec (pfx : List Nat) (rs : List HailstormResource) (buf0 : Nat → Nat)
    (hp : 0 < pfx.length)
    (hpacked : ∀ i, i < rs.length → (rs.getD i emptyResource).path_offset = packedOffset rs i)
    (hsmall : ∀ i, i < rs.length → (rs.getD i emptyResource).path_size + pfx.length < 2 ^ 16)
    (hbound : packedOffset rs rs.length + rs.length * pfx.length < 2 ^ 32) :
    ∀ k, k ≤ rs.length → ∀ cur : List HailstormResource, ∀ buf : Nat → Nat,
      cur.length = rs.length →
      (∀ i, i < k → cur.getD i emptyResource = rs.getD i emptyResource) →
      (∀ pos : Nat, pos < packedOffset rs k + k * pfx.length → buf pos = buf0 pos) →
      (prefix_loop pfx k (((packedOffset rs k + k * pfx.length : Nat) : Int) - 1)
          buf cur).resource_idx = 0 ∧
      (prefix_loop pfx k (((packedOffset rs k + k * pfx.length : Nat) : Int) - 1)
          buf cur).ex_end = -1 ∧
      (prefix_loop pfx k (((packedOffset rs k + k * pfx.length : Nat) : Int) - 1)
          buf cur).resources.length = rs.length ∧
      (∀ i, k ≤ i →
        (prefix_loop pfx k (((packedOffset rs k + k * pfx.length : Nat) : Int) - 1)
            buf cur).resources.getD i emptyResource = cur.getD i emptyResource) ∧
      (∀ i, i < k →
        (prefix_loop pfx k (((packedOffset rs k + k * pfx.length : Nat) : Int) - 1)
            buf cur).resources.getD i emptyResource =
          { rs.getD i emptyResource with
            path_offset := packedOffset rs i + i * pfx.length
            path_size := (rs.getD i emptyResource).path_size + pfx.length }) ∧
      (∀ pos : Nat, packedOffset rs k + k * pfx.length ≤ pos →
        (prefix_loop pfx k (((packedOffset rs k + k * pfx.length : Nat) : Int) - 1)
            buf cur).buf pos = buf pos) ∧
      (∀ i, i < k →
        (∀ j, j < pfx.length →
          (prefix_loop pfx k (((packedOffset rs k + k * pfx.length : Nat) : Int) - 1)
              buf cur).buf (packedOffset rs i + i * pfx.length + j) = pfx.getD j 0) ∧
        (∀ j, j < (rs.getD i emptyResource).path_size →
          (prefix_loop pfx k (((packedOffset rs k + k * pfx.length : Nat) : Int) - 1)
              buf cur).buf (packedOffset rs i + i * pfx.length + pfx.length + j) =
            buf0 (packedOffset rs i + j)) ∧
        (prefix_loop pfx k (((packedOffset rs k + k * pfx.length : Nat) : Int) - 1)
            buf cur).buf (packedOffset rs i + i * pfx.length + pfx.length +
          (rs.getD i emptyResource).path_size) = 0) := by
  intro k
  induction k with
  | zero =>
    intro _ cur buf hlen hagree hbuf
    refine ⟨rfl, ?_, hlen, fun i _ => rfl, fun i hi => absurd hi (by omega), fun pos _ => rfl,
      fun i hi => absurd hi (by omega)⟩
    simp [prefix_loop, packedOffset_zero]
  | succ k ih =>
    intro hk1 cur buf hlen hagree hbuf
    have hk : k < rs.length := by omega
    have hres : cur.getD k emptyResource = rs.getD k emptyResource := hagree k (by omega)
    have hPS : packedOffset rs (k + 1) =
        packedOffset rs k + ((rs.getD k emptyResource).path_size + 1) :=
      packedOffset_succ rs k hk
    have hsm : (k + 1) * pfx.length = k * pfx.length + pfx.length := Nat.succ_mul k pfx.length
    have hmono : packedOffset rs k ≤ packedOffset rs rs.length := packedOffset_mono rs (by omega)
    have hmul2 : k * pfx.length ≤ rs.length * pfx.length :=
      Nat.mul_le_mul_right pfx.length (by omega)
    have hT0lt : packedOffset rs k + k * pfx.length < 2 ^ 32 := by omega
    have hguard : ¬ ((((packedOffset rs (k + 1) + (k + 1) * pfx.length : Nat) : Int) - 1) ≤ 0) := by
      omega
    have hstep : prefix_loop pfx (k + 1)
        (((packedOffset rs (k + 1) + (k + 1) * pfx.length : Nat) : Int) - 1) buf cur =
        prefix_loop pfx k (((packedOffset rs k + k * pfx.length : Nat) : Int) - 1)
          (copyList
            (copyWithin
              (setByteI buf
                ((packedOffset rs k + k * pfx.length + pfx.length +
                  (rs.getD k emptyResource).path_size : Nat) : Int) 0)
              ((packedOffset rs k + k * pfx.length + pfx.length : Nat) : Int)
              (packedOffset rs k) (rs.getD k emptyResource).path_size)
            ((packedOffset rs k + k * pfx.length : Nat) : Int) pfx)
          (cur.set k
            { rs.getD k emptyResource with
              path_offset := packedOffset rs k + k * pfx.length
              path_size := (rs.getD k emptyResource).path_size + pfx.length }) := by
      simp only [prefix_loop]
      rw [if_neg hguard, hres, hpacked k hk]
      have e0 : (((packedOffset rs (k + 1) + (k + 1) * pfx.length : Nat) : Int) - 1) =
          ((packedOffset rs k + k * pfx.length + pfx.length +
            (rs.getD k emptyResource).path_size : Nat) : Int) := by omega
      have e1 : (((packedOffset rs (k + 1) + (k + 1) * pfx.length : Nat) : Int) - 1 -
          ((rs.getD k emptyResource).path_size : Int) - (pfx.length : Int) - 1) =
          ((packedOffset rs k + k * pfx.length : Nat) : Int) - 1 := by omega
      have e3 : (((packedOffset rs (k + 1) + (k + 1) * pfx.length : Nat) : Int) - 1 -
          ((rs.getD k emptyResource).path_size : Int) - (pfx.length : Int)) =
          ((packedOffset rs k + k * pfx.length : Nat) : Int) := by omega
      have e2 : (((packedOffset rs (k + 1) + (k + 1) * pfx.length : Nat) : Int) - 1 -
          ((rs.getD k emptyResource).path_size : Int)) =
          ((packedOffset rs k + k * pfx.length + pfx.length : Nat) : Int) := by omega
      have e4 : ((((packedOffset rs k + k * pfx.length : Nat) : Int)).natAbs % 2 ^ 32) =
          packedOffset rs k + k * pfx.length := by
        rw [Int.natAbs_ofNat]
        exact Nat.mod_eq_of_lt hT0lt
      have e5 : ((rs.getD k emptyResource).path_size + pfx.length) % 2 ^ 16 =
          (rs.getD k emptyResource).path_size + pfx.length :=
        Nat.mod_eq_of_lt (hsmall k hk)
      rw [e1, e3, e2, e4, e5, e0]
    rw [hstep]
    have hagree2 : ∀ i, i < k →
        (cur.set k
          { rs.getD k emptyResource with
            path_offset := packedOffset rs k + k * pfx.length
            path_size := (rs.getD k emptyResource).path_size + pfx.length }).getD i
          emptyResource = rs.getD i emptyResource := by
      intro i hi
      rw [getD_set_ne _ _ _ _ _ (by omega)]
      exact hagree i (by omega)
    have hbuf2 : ∀ pos : Nat, pos < packedOffset rs k + k * pfx.length →
        (copyList
          (copyWithin
            (setByteI buf
              ((packedOffset rs k + k * pfx.length + pfx.length +
                (rs.getD k emptyResource).path_size : Nat) : Int) 0)
            ((packedOffset rs k + k * pfx.length + pfx.length : Nat) : Int)
            (packedOffset rs k) (rs.getD k emptyResource).path_size)
          ((packedOffset rs k + k * pfx.length : Nat) : Int) pfx) pos = buf0 pos := by
      intro pos hpos
      rw [copyList_out _ _ _ _ (by left; omega), copyWithin_out _ _ _ _ _ (by left; omega),
        setByteI_out _ _ _ _ (by omega)]
      exact hbuf pos (by omega)
    obtain ⟨ih1, ih2, ih3, ih4, ih5, ih6, ih7⟩ :=
      ih (by omega)
        (cur.set k
          { rs.getD k emptyResource with
            path_offset := packedOffset rs k + k * pfx.length
            path_size := (rs.getD k emptyResource).path_size + pfx.length })
        (copyList
          (copyWithin
            (setByteI buf
              ((packedOffset rs k + k * pfx.length + pfx.length +
                (rs.getD k emptyResource).path_size : Nat) : Int) 0)
            ((packedOffset rs k + k * pfx.length + pfx.length : Nat) : Int)
            (packedOffset rs k) (rs.getD k emptyResource).path_size)
          ((packedOffset rs k + k * pfx.length : Nat) : Int) pfx)
        (by rw [List.length_set]; exact hlen) hagree2 hbuf2
    refine ⟨ih1, ih2, ih3, ?_, ?_, ?_, ?_⟩
    · intro i hi
      rw [ih4 i (by omega), getD_set_ne _ _ _ _ _ (by omega)]
    · intro i hi
      rcases Nat.lt_or_ge i k with h2 | h2
      · exact ih5 i h2
      · have hik : i = k := by omega
        subst hik
        rw [ih4 i (Nat.le_refl i), getD_set_self _ _ _ _ (by omega)]
    · intro pos hpos
      rw [ih6 pos (by omega), copyList_out _ _ _ _ (by right; push_cast; omega),
        copyWithin_out _ _ _ _ _ (by right; push_cast; omega),
        setByteI_out _ _ _ _ (by push_cast; omega)]
    · intro i hi
      rcases Nat.lt_or_ge i k with h2 | h2
      · exact ih7 i h2
      · have hik : i = k := by omega
        subst hik
        refine ⟨?_, ?_, ?_⟩
        · intro j hj
          rw [ih6 _ (by omega), copyList_at _ _ _ _ (by omega)]
        · intro j hj
          have hq : packedOffset rs i + i * pfx.length + pfx.length + j =
              (packedOffset rs i + i * pfx.length + pfx.length) + j := by omega
          rw [ih6 _ (by omega), copyList_out _ _ _ _ (by right; push_cast; omega), hq,
            copyWithin_at _ _ _ _ _ (by omega),
            setByteI_out _ _ _ _ (by push_cast; omega)]
          exact hbuf _ (by omega)
        · rw [ih6 _ (by omega), copyList_out _ _ _ _ (by right; push_cast; omega),
            copyWithin_out _ _ _ _ _ (by right; push_cast; omega), setByteI_at]

/-- C9: on a packed NUL-separated path block (consecutive paths, zero-padded
tail, last path byte non-zero, no 16-bit size overflow and a large enough
buffer) `prefix_resource_paths` returns true, and afterwards every resource's
new region holds the prefix followed by its original path bytes, the byte
after the region is NUL, and `path_size` grew by exactly the prefix length. -/
theorem c9_prefix_paths_correct (paths_info : HailstormPaths)
    (rs : List HailstormResource) (bufSize : Nat) (buf0 : Nat → Nat) (pfx : List Nat)
    (hp : 0 < pfx.length)
    (hpacked : ∀ i, i < rs.length → (rs.getD i emptyResource).path_offset = packedOffset rs i)
    (hT2 : 2 ≤ packedOffset rs rs.length)
    (hT : packedOffset rs rs.length ≤ paths_info.size)
    (hlast : buf0 (packedOffset rs rs.length - 2) ≠ 0)
    (htail : ∀ j, j < paths_info.size → packedOffset rs rs.length - 1 ≤ j → buf0 j = 0)
    (hfits : paths_info.size + rs.length * pfx.length ≤ bufSize)
    (hsmall : ∀ i, i < rs.length → (rs.getD i emptyResource).path_size + pfx.length < 2 ^ 16)
    (hoff : paths_info.size + rs.length * pfx.length < 2 ^ 32) :
    ∃ rs' buf',
      prefix_resource_paths paths_info rs bufSize buf0 pfx = some (true, rs', buf') ∧
      rs'.length = rs.length ∧
      ∀ i, i < rs.length →
        (rs'.getD i emptyResource).path_offset =
          (rs.getD i emptyResource).path_offset + i * pfx.length ∧
        (rs'.getD i emptyResource).path_size =
          (rs.getD i emptyResource).path_size + pfx.length ∧
        (∀ j, j < pfx.length →
          buf' ((rs'.getD i emptyResource).path_offset + j) = pfx.getD j 0) ∧
        (∀ j, j < (rs.getD i emptyResource).path_size →
          buf' ((rs'.getD i emptyResource).path_offset + pfx.length + j) =
            buf0 ((rs.getD i emptyResource).path_offset + j)) ∧
        buf' ((rs'.getD i emptyResource).path_offset + pfx.length +
          (rs.getD i emptyResource).path_size) = 0 := by
  have hbound : packedOffset rs rs.length + rs.length * pfx.length < 2 ^ 32 := by omega
  have hscan : findPathsEnd buf0 paths_info.size = some (packedOffset rs rs.length - 1) := by
    refine findPathsEnd_stops buf0 (packedOffset rs rs.length - 1) (by omega) ?_
      paths_info.size (by omega) (fun j hj hjn => htail j hjn hj)
    have h2 : packedOffset rs rs.length - 1 - 1 = packedOffset rs rs.length - 2 := by omega
    rw [h2]
    exact hlast
  obtain ⟨ih1, ih2, ih3, ih4, ih5, ih6, ih7⟩ :=
    prefix_loop_spec pfx rs buf0 hp hpacked hsmall hbound rs.length (Nat.le_refl _)
      rs buf0 rfl (fun i _ => rfl) (fun pos _ => rfl)
  have ecur : ((packedOffset rs rs.length - 1 : Nat) : Int) +
      (rs.length : Int) * (pfx.length : Int) =
      ((packedOffset rs rs.length + rs.length * pfx.length : Nat) : Int) - 1 := by
    rw [Nat.cast_sub (by omega : 1 ≤ packedOffset rs rs.length), Nat.cast_add, Nat.cast_mul]
    omega
  have hrun : prefix_resource_paths paths_info rs bufSize buf0 pfx =
      some (true,
        (prefix_loop pfx rs.length
          (((packedOffset rs rs.length + rs.length * pfx.length : Nat) : Int) - 1)
          buf0 rs).resources,
        (prefix_loop pfx rs.length
          (((packedOffset rs rs.length + rs.length * pfx.length : Nat) : Int) - 1)
          buf0 rs).buf) := by
    unfold prefix_resource_paths prefixed_resource_paths_size
    rw [if_neg (by omega)]
    simp only [hscan, ecur, ih1, ih2]
    simp
  refine ⟨_, _, hrun, ih3, ?_⟩
  intro i hi
  have h5 := ih5 i hi
  refine ⟨?_, ?_, ?_, ?_, ?_⟩
  · rw [h5, hpacked i hi]
  · rw [h5]
  · intro j hj
    rw [h5]
    exact (ih7 i hi).1 j hj
  · intro j hj
    rw [h5, hpacked i hi]
    exact (ih7 i hi).2.1 j hj
  · rw [h5]
    exact (ih7 i hi).2.2

/-- Concrete resources for the C9 witness: packed paths "x", "yy", "zzz". -/
def c9res : List HailstormResource :=
  [⟨0, 0, 0, 0, 0, 0, 0, 1⟩, ⟨0, 0, 0, 0, 0, 0, 2, 2⟩, ⟨0, 0, 0, 0, 0, 0, 5, 3⟩]

/-- Concrete path block for the C9 witness: "x\0yy\0zzz\0" zero-padded. -/
def c9buf : Nat → Nat := fun i => [120, 0, 121, 121, 0, 122, 122, 122, 0].getD i 0

/-- Concrete prefix bytes "pre/" for the C9 witness. -/
def c9pfx : List Nat := [112, 114, 101, 47]

/-- C9 witness: the prefix-rewrite correctness theorem applied to the packed
block "x\0yy\0zzz\0" with prefix "pre/". -/
theorem c9_prefix_paths_witness :
    (0 < c9pfx.length ∧
     (∀ i, i < c9res.length →
       (c9res.getD i emptyResource).path_offset = packedOffset c9res i) ∧
     2 ≤ packedOffset c9res c9res.length ∧
     packedOffset c9res c9res.length ≤ 16 ∧
     c9buf (packedOffset c9res c9res.length - 2) ≠ 0 ∧
     (∀ j, j < 16 → packedOffset c9res c9res.length - 1 ≤ j → c9buf j = 0) ∧
     16 + c9res.length * c9pfx.length ≤ 28 ∧
     (∀ i, i < c9res.length →
       (c9res.getD i emptyResource).path_size + c9pfx.length < 2 ^ 16) ∧
     16 + c9res.length * c9pfx.length < 2 ^ 32) ∧
    (∃ rs' buf',
      prefix_resource_paths ⟨0, 16⟩ c9res 28 c9buf c9pfx = some (true, rs', buf') ∧
      rs'.length = c9res.length ∧
      ∀ i, i < c9res.length →
        (rs'.getD i emptyResource).path_offset =
          (c9res.getD i emptyResource).path_offset + i * c9pfx.length ∧
        (rs'.getD i emptyResource).path_size =
          (c9res.getD i emptyResource).path_size + c9pfx.length ∧
        (∀ j, j < c9pfx.length →
          buf' ((rs'.getD i emptyResource).path_offset + j) = c9pfx.getD j 0) ∧
        (∀ j, j < (c9res.getD i emptyResource).path_size →
          buf' ((rs'.getD i emptyResource).path_offset + c9pfx.length + j) =
            c9buf ((c9res.getD i emptyResource).path_offset + j)) ∧
        buf' ((rs'.getD i emptyResource).path_offset + c9pfx.length +
          (c9res.getD i emptyResource).path_size) = 0) :=
  ⟨⟨by decide, by decide, by decide, by decide, by decide, by decide, by decide,
    by decide, by decide⟩,
   c9_prefix_paths_correct ⟨0, 16⟩ c9res 28 c9buf c9pfx (by decide) (by decide)
     (by decide) (by decide) (by decide) (by decide) (by decide) (by decide) (by decide)⟩

/-- The `Constant_MetadataMinAlign` of the source. -/
def Constant_MetadataMinAlign : Nat := 8

/-- A `hailstorm::Data` view used by the write path: null flag, `size_t` size,
`size_t` alignment and the pointed-to bytes. -/
structure DataView where
  isNull : Bool
  size : Nat
  align : Nat
  bytes : Nat → Nat

/-- A default-constructed `Data{}`. -/
def emptyDataView : DataView := ⟨true, 0, 0, fun _ => 0⟩

/-- The `Data{.align = 8}` value used when creating the first chunk. -/
def alignOnlyData : DataView := ⟨true, 0, 8, fun _ => 0⟩

/-- Mirror of `HailstormWriteChunkRef`. -/
structure HailstormWriteChunkRef where
  data_chunk : Nat
  meta_chunk : Nat
  data_create : Bool
  meta_create : Bool
deriving DecidableEq

/-- A value-initialized chunk reference (the source leaves the chunk indices
of `resize`d entries default-initialized; 0 stands for that). -/
def emptyRef : HailstormWriteChunkRef := ⟨0, 0, false, false⟩

/-- Mirror of `HailstormWriteData`: paths are byte lists, custom values are
the two words copied into the header. -/
structure HailstormWriteData where
  paths : List (List Nat)
  data : List DataView
  metadata : List DataView
  metadata_mapping : List Nat
  custom0 : Nat
  custom1 : Nat

/-- Mirror of `HailstormWriteParams`: heuristics and callbacks are Lean
functions with the `userdata` folded into the closures.  The custom-chunk
callback yields its success flag together with the bytes it writes into the
provided memory; the resource-write callback yields the bytes it streams. -/
structure HailstormWriteParams where
  initial_chunks : List HailstormChunk
  fn_select_chunk : DataView → DataView → List HailstormChunk → HailstormWriteChunkRef
  fn_create_chunk : DataView → DataView → HailstormChunk → HailstormChunk
  fn_resource_write : HailstormWriteData → Nat → (Nat → Nat)
  fn_custom_chunk_write : HailstormWriteData → HailstormChunk → (Bool × (Nat → Nat))

/-- State threaded through `estimate_cluster_chunks`. -/
structure PlanState where
  chunks : List HailstormChunk
  refs : List HailstormWriteChunkRef
  sizes : List Nat
  metatracker : List Nat
  paths_size : Nat
  requires_cb : Bool

/-- The tail of one `estimate_cluster_chunks` iteration (source lines
193-268): chunk creation, the continue-without-advancing case, and the
commit case with its assertions modelled as `none`. -/
def estimate_tail (params : HailstormWriteParams) (wd : HailstormWriteData)
    (idx : Nat) (st : PlanState) (metadata_idx : Nat) (meta data : DataView)
    (requires_cb : Bool) (ref : HailstormWriteChunkRef) (shared : Bool) :
    Option (Bool × PlanState) :=
  if ref.data_create = true ∧
      ¬ ((ref.data_chunk = ref.meta_chunk ∧
          (params.fn_create_chunk meta data (st.chunks.getD ref.data_chunk emptyChunk)).type = 3) ∨
        (params.fn_create_chunk meta data (st.chunks.getD ref.data_chunk emptyChunk)).type = 2)
    then none
  else
  let st1 := if ref.data_create then
      { st with
        chunks := st.chunks ++
          [{ params.fn_create_chunk meta data (st.chunks.getD ref.data_chunk emptyChunk) with
             offset := 0, size_origin := 0, count_entries := 0 }]
        sizes := st.sizes ++ [0]
        requires_cb := requires_cb }
    else { st with requires_cb := requires_cb }
  if ref.meta_create = true ∧ shared = true then none
  else if ref.meta_create = true ∧
      (params.fn_create_chunk meta data (st1.chunks.getD ref.meta_chunk emptyChunk)).type ≠ 1
    then none
  else
  let st2 := if ref.meta_create then
      { st1 with
        chunks := st1.chunks ++
          [params.fn_create_chunk meta data (st1.chunks.getD ref.meta_chunk emptyChunk)] }
    else st1
  if ref.data_create || ref.meta_create then some (false, st2)
  else
    if (st2.chunks.getD ref.data_chunk emptyChunk).type &&& 2 = 0 then none
    else if (st2.chunks.getD ref.meta_chunk emptyChunk).type &&& 1 = 0 then none
    else
    let tracker1 := if st2.metatracker.length ≠ 0 then
        if st2.metatracker.getD metadata_idx 0 = Constant_U32Max then
          st2.metatracker.set metadata_idx idx
        else st2.metatracker
      else st2.metatracker
    let refs1 := st2.refs.set idx ref
    let chunks1 := st2.chunks.set ref.data_chunk
      { st2.chunks.getD ref.data_chunk emptyChunk with
        count_entries := (st2.chunks.getD ref.data_chunk emptyChunk).count_entries + 1 }
    let chunks2 := if shared = false ∧ ref.data_chunk ≠ ref.meta_chunk then
        chunks1.set ref.meta_chunk
          { chunks1.getD ref.meta_chunk emptyChunk with
            count_entries := (chunks1.getD ref.meta_chunk emptyChunk).count_entries + 1 }
      else chunks1
    let sizes1 := if shared = false then
        st2.sizes.set ref.meta_chunk
          (align_to64 (st2.sizes.getD ref.meta_chunk 0) 8 + meta.size)
      else st2.sizes
    let sizes2 := sizes1.set ref.data_chunk
      (align_to64 (sizes1.getD ref.data_chunk 0) data.align + data.size)
    some (true,
      { chunks := chunks2
        refs := refs1
        sizes := sizes2
        metatracker := tracker1
        paths_size := (st2.paths_size + ((wd.paths.getD idx []).length % 2 ^ 32 + 1)) % 2 ^ 32
        requires_cb := requires_cb })

/-- One iteration of the `estimate_cluster_chunks` loop (source lines
145-269).  `none` models a failed assertion; the returned flag tells whether
the resource index advances. -/
def estimate_step (params : HailstormWriteParams) (wd : HailstormWriteData)
    (idx : Nat) (st : PlanState) : Option (Bool × PlanState) :=
  let metadata_idx := if st.metatracker.length ≠ 0 then wd.metadata_mapping.getD idx 0 else idx
  let meta := wd.metadata.getD metadata_idx emptyDataView
  let data := wd.data.getD idx emptyDataView
  let requires_cb := st.requires_cb || data.isNull
  let ref0 := params.fn_select_chunk meta data st.chunks
  if ref0.data_create = false ∧ ref0.meta_create = false then
    if ref0.data_chunk < st.chunks.length ∧ ref0.meta_chunk < st.chunks.length then
      let shared := st.metatracker.length ≠ 0 ∧
        st.metatracker.getD metadata_idx 0 ≠ Constant_U32Max
      let ref1 := if shared then
          { ref0 with meta_chunk := (st.refs.getD metadata_idx emptyRef).meta_chunk }
        else ref0
      let data_remaining := wsub64
        (wsub64 (st.chunks.getD ref1.data_chunk emptyChunk).size
          (st.sizes.getD ref1.data_chunk 0)) data.align
      let meta_remaining := wsub64
        (wsub64 (st.chunks.getD ref1.meta_chunk emptyChunk).size
          (st.sizes.getD ref1.meta_chunk 0)) Constant_MetadataMinAlign
      let ref2 := if ref1.data_chunk = ref1.meta_chunk then
          { ref1 with data_create := decide (wsub64 data_remaining meta.size < data.size)
                      meta_create := false }
        else
          { ref1 with data_create := decide (data_remaining < data.size)
                      meta_create := decide (meta_remaining < meta.size) }
      estimate_tail params wd idx st metadata_idx meta data requires_cb ref2 shared
    else none
  else
    estimate_tail params wd idx st metadata_idx meta data requires_cb ref0 false

/-- Fueled `estimate_cluster_chunks` loop; `none` also models non-termination
(the source may loop forever when the heuristics keep requesting chunks). -/
def estimate_loop (params : HailstormWriteParams) (wd : HailstormWriteData)
    (res_count : Nat) : Nat → Nat → PlanState → Option PlanState
  | 0, _, _ => none
  | fuel + 1, idx, st =>
    if idx < res_count then
      match estimate_step params wd idx st with
      | none => none
      | some (adv, st') =>
        estimate_loop params wd res_count fuel (if adv then idx + 1 else idx) st'
    else some st

/-- Final per-chunk sizing of `prepare_cluster_info` (source lines 317-322):
`chunk.size = align_to(sizes[i], chunk.align)`.  When a metadata-only chunk
was appended, the source reads `out_chunk_sizes` out of bounds; the missing
entry is modelled as 0. -/
def resize_chunks : List HailstormChunk → List Nat → List HailstormChunk
  | [], _ => []
  | c :: cs, s :: ss => { c with size := align_to64 s c.align } :: resize_chunks cs ss
  | c :: cs, [] => { c with size := align_to64 0 c.align } :: resize_chunks cs []

/-- Shallow embedding of `prepare_cluster_info` (source lines 274-325). -/
def prepare_cluster_info (fuel : Nat) (params : HailstormWriteParams)
    (wd : HailstormWriteData) : Option PlanState :=
  let res_count := wd.paths.length
  let chunks1 := if params.initial_chunks.length = 0 then
      [params.fn_create_chunk alignOnlyData alignOnlyData emptyChunk]
    else params.initial_chunks
  let st0 : PlanState := {
    chunks := chunks1
    refs := List.replicate res_count emptyRef
    sizes := List.replicate chunks1.length 0
    metatracker := List.replicate wd.metadata_mapping.length Constant_U32Max
    paths_size := 8
    requires_cb := false }
  match estimate_loop params wd res_count fuel 0 st0 with
  | none => none
  | some st => some { st with
      paths_size := align_to32 st.paths_size 8 % 2 ^ 32
      chunks := resize_chunks st.chunks st.sizes }

/-- The byte offsets computed by `cluster_size_info` (the unused `ids` field
of the source's `Offsets` is omitted; it is never initialized). -/
structure Offsets where
  chunks : Nat
  resources : Nat
  data : Nat
  paths_info : Nat
  paths_data : Nat
deriving DecidableEq

/-- Shallow embedding of `cluster_size_info` (source lines 111-130):
`increase_size` calls with the sizes/alignments of the packed records
(header 64, paths 8 align 4, chunk 32 align 8, resource 36 align 4, path
data align 8), then the sum of chunk sizes. -/
def cluster_size_info (res_count : Nat) (chunks : List HailstormChunk)
    (paths_size : Nat) : Offsets × Nat :=
  let o_pi := align_to64 64 4
  let o_ch := align_to64 (o_pi + 8) 8
  let o_rs := align_to64 (o_ch + 32 * chunks.length) 4
  let o_pd := align_to64 (o_rs + 36 * res_count) 8
  let o_data := o_pd + paths_size
  (⟨o_ch, o_rs, o_data, o_pi, o_pd⟩, o_data + (chunks.map (·.size)).sum)

/-- Chunk placement of the emitter (source lines 378-386): each chunk gets
the running offset, `size_origin := size`, and the cursor advances by the
chunk size rounded up to 8. -/
def place_chunks (off : Nat) : List HailstormChunk → List HailstormChunk
  | [] => []
  | c :: cs => { c with size_origin := c.size, offset := off } ::
      place_chunks (align_to64 (off + c.size) 8) cs

/-- Everything `write_cluster_internal` computes before the first positioned
write: the filled-in header, the path descriptor, the placed chunks, the
planner's reference and size arrays, the layout offsets and the total size. -/
structure PlanResult where
  header : HailstormHeader
  paths_info : HailstormPaths
  chunks : List HailstormChunk
  refs : List HailstormWriteChunkRef
  sizes : List Nat
  offsets : Offsets
  final_size : Nat
  requires_cb : Bool
deriving DecidableEq

/-- The planning phase of `write_cluster_internal` (source lines 334-386). -/
def plan_cluster (fuel : Nat) (params : HailstormWriteParams)
    (wd : HailstormWriteData) : Option PlanResult :=
  match prepare_cluster_info fuel params wd with
  | none => none
  | some st =>
    let res_count := wd.paths.length
    let oi := cluster_size_info res_count st.chunks st.paths_size
    some {
      header := {
        magic := Constant_HailstormMagic
        header_version := Constant_HailstormHeaderVersionV0
        header_size := oi.1.paths_data
        offset_next := oi.2
        offset_data := oi.1.data
        count_chunks := st.chunks.length % 2 ^ 16
        count_resources := res_count % 2 ^ 16
        app_custom0 := wd.custom0
        app_custom1 := wd.custom1 }
      paths_info := ⟨oi.1.paths_data % 2 ^ 32, st.paths_size⟩
      chunks := place_chunks oi.1.data st.chunks
      refs := st.refs
      sizes := st.sizes
      offsets := oi.1
      final_size := oi.2
      requires_cb := st.requires_cb }

/-- Serialization of the 64-byte header (packed little-endian layout; the
version bytes, flag byte and `pack_*` fields are written as zero by the
emitter). -/
def headerBytes (h : HailstormHeader) : Nat → Nat := fun i =>
  if i < 4 then leByte h.magic i
  else if i < 8 then leByte h.header_version (i - 4)
  else if i < 16 then leByte h.header_size (i - 8)
  else if i < 24 then leByte h.offset_next (i - 16)
  else if i < 32 then leByte h.offset_data (i - 24)
  else if i < 36 then 0
  else if i < 40 then leByte h.count_chunks (i - 36)
  else if i < 44 then leByte h.count_resources (i - 40)
  else if i < 56 then 0
  else if i < 60 then leByte h.app_custom0 (i - 56)
  else if i < 64 then leByte h.app_custom1 (i - 60)
  else 0

/-- Serialization of the 8-byte `HailstormPaths` record. -/
def pathsBytes (p : HailstormPaths) : Nat → Nat := fun i =>
  if i < 4 then leByte p.offset i
  else if i < 8 then leByte p.size (i - 4)
  else 0

/-- Serialization of one 32-byte chunk record (bitfield byte 20 packs type,
persistance and flags LSB-first; `size_origin` is not part of the public
32-byte layout and is not serialized). -/
def chunkBytes (c : HailstormChunk) : Nat → Nat := fun i =>
  if i < 8 then leByte c.offset i
  else if i < 16 then leByte c.size (i - 8)
  else if i < 20 then leByte c.align (i - 16)
  else if i < 21 then c.type % 4 + c.persistance % 4 * 4 + c.flags % 16 * 16
  else if i < 24 then 0
  else if i < 28 then leByte c.app_custom_value (i - 24)
  else if i < 32 then leByte c.count_entries (i - 28)
  else 0

/-- The serialized chunk table (raw bytes of the chunk array). -/
def chunkTableBytes (cs : List HailstormChunk) : Nat → Nat := fun j =>
  chunkBytes (cs.getD (j / 32) emptyChunk) (j % 32)

/-- Serialization of one 36-byte resource record (`size_origin` and the two
compression bytes are left uninitialized by the emitter, modelled as 0). -/
def resourceBytes (r : HailstormResource) : Nat → Nat := fun i =>
  if i < 4 then leByte r.chunk i
  else if i < 8 then leByte r.meta_chunk (i - 4)
  else if i < 12 then leByte r.offset (i - 8)
  else if i < 16 then leByte r.size (i - 12)
  else if i < 20 then 0
  else if i < 24 then leByte r.meta_offset (i - 20)
  else if i < 28 then leByte r.meta_size (i - 24)
  else if i < 32 then leByte r.path_offset (i - 28)
  else if i < 34 then leByte r.path_size (i - 32)
  else 0

/-- The serialized resource table. -/
def resourceTableBytes (rs : List HailstormResource) : Nat → Nat := fun j =>
  resourceBytes (rs.getD (j / 36) emptyResource) (j % 36)

/-- The positioned-write operations a data writer must provide (the
`IDataWriter` concept); each returns the new sink state and the validity
flag of the `DataWriterStage`. -/
structure DataWriterOps (σ : Type) where
  write_header : σ → (Nat → Nat) → Nat → Nat → σ × Bool
  write_resource : σ → HailstormWriteData → Nat → Nat → σ × Bool
  write_metadata : σ → HailstormWriteData → Nat → Nat → σ × Bool
  write_custom_chunk_data : σ → HailstormWriteData → HailstormChunk → σ × Bool

/-- The synchronous buffer sink (`DataWriter<DataWriterMode::Synchronous>`):
every write is a positioned copy into one buffer of `total` bytes and always
succeeds, except the custom-chunk write whose validity is the callback's
result.  A null resource data view forwards to the caller's resource-write
callback, which receives the whole tail of the buffer. -/
def syncOps (params : HailstormWriteParams) (total : Nat) :
    DataWriterOps (Nat → Nat) := {
  write_header := fun buf bytes sz off => (writeBytes buf off sz bytes, true)
  write_resource := fun buf wd idx off =>
    if (wd.data.getD idx emptyDataView).isNull then
      (writeBytes buf off (total - off) (params.fn_resource_write wd idx), true)
    else
      (writeBytes buf off (wd.data.getD idx emptyDataView).size
        (wd.data.getD idx emptyDataView).bytes, true)
  write_metadata := fun buf wd i off =>
    (writeBytes buf off (wd.metadata.getD i emptyDataView).size
      (wd.metadata.getD i emptyDataView).bytes, true)
  write_custom_chunk_data := fun buf wd c =>
    (writeBytes buf c.offset (total - c.offset) (params.fn_custom_chunk_write wd c).2,
      (params.fn_custom_chunk_write wd c).1) }

/-- Mirror of `HailstormAsyncWriteParams`: the caller's positioned-write
callbacks, modelled by their success results. -/
structure HailstormAsyncWriteParams where
  base_params : HailstormWriteParams
  fn_async_open : Nat → Bool
  fn_async_write_header : Nat → Nat → Bool
  fn_async_write_metadata : Nat → Nat → Bool
  fn_async_write_resource : Nat → Nat → Bool
  fn_async_write_custom_chunk : Nat → Bool
  fn_async_close : Unit → Bool

/-- The asynchronous sink (`DataWriter<DataWriterMode::Asynchronous>`): each
write forwards to the corresponding caller callback. -/
def asyncOps (ap : HailstormAsyncWriteParams) : DataWriterOps Unit := {
  write_header := fun _ _ sz off => ((), ap.fn_async_write_header sz off)
  write_resource := fun _ _ idx off => ((), ap.fn_async_write_resource idx off)
  write_metadata := fun _ _ i off => ((), ap.fn_async_write_metadata i off)
  write_custom_chunk_data := fun _ _ c => ((), ap.fn_async_write_custom_chunk c.offset) }

/-- State of the per-resource emission loop. -/
structure EmitState (σ : Type) where
  sink : σ
  resources : List HailstormResource
  sizes : List Nat
  metatracker : List Nat
  paths_offset : Nat
  pathsBuf : Nat → Nat

/-- One iteration of the emission loop (source lines 423-492).  `none`
models a failed assertion or an aborted sink write.  Note the source bug:
the first-occurrence branch records `meta_size` from `data.size` and also
advances the used counter by `data.size`. -/
def emit_step (σ : Type) (ops : DataWriterOps σ) (wd : HailstormWriteData)
    (chunks : List HailstormChunk) (refs : List HailstormWriteChunkRef)
    (idx : Nat) (st : EmitState σ) : Option (EmitState σ) :=
  let ref := refs.getD idx emptyRef
  let data_chunk := chunks.getD ref.data_chunk emptyChunk
  let meta_chunk := chunks.getD ref.meta_chunk emptyChunk
  let meta_idx := if st.metatracker.length ≠ 0 then wd.metadata_mapping.getD idx 0 else idx
  let meta_map_idx := if st.metatracker.length ≠ 0 then st.metatracker.getD meta_idx 0
    else Constant_U32Max
  let tracker1 := if st.metatracker.length ≠ 0 then st.metatracker.set meta_idx idx
    else st.metatracker
  let d := wd.data.getD idx emptyDataView
  let metaPart : Option (σ × List Nat × Nat × Nat) :=
    if meta_map_idx = Constant_U32Max then
      match ops.write_metadata st.sink wd meta_idx
        (meta_chunk.offset + st.sizes.getD ref.meta_chunk 0) with
      | (_, false) => none
      | (sink1, true) =>
        some (sink1,
          st.sizes.set ref.meta_chunk
            (align_to64 (st.sizes.getD ref.meta_chunk 0 + d.size) meta_chunk.align),
          st.sizes.getD ref.meta_chunk 0 % 2 ^ 32,
          d.size % 2 ^ 32)
    else
      some (st.sink, st.sizes,
        (st.resources.getD meta_map_idx emptyResource).meta_offset,
        (st.resources.getD meta_map_idx emptyResource).meta_size)
  match metaPart with
  | none => none
  | some (sink1, sizes1, moff, msz) =>
    match ops.write_resource sink1 wd idx
      (data_chunk.offset + sizes1.getD ref.data_chunk 0) with
    | (_, false) => none
    | (sink2, true) =>
      if d.align ≤ data_chunk.align then
        some {
          sink := sink2
          resources := st.resources ++
            [{ chunk := ref.data_chunk
               meta_chunk := ref.meta_chunk
               offset := sizes1.getD ref.data_chunk 0 % 2 ^ 32
               size := d.size % 2 ^ 32
               meta_offset := moff
               meta_size := msz
               path_offset := st.paths_offset
               path_size := (wd.paths.getD idx []).length % 2 ^ 16 }]
          sizes := sizes1.set ref.data_chunk
            (align_to64 (sizes1.getD ref.data_chunk 0 + d.size) data_chunk.align)
          metatracker := tracker1
          paths_offset := (st.paths_offset +
            ((wd.paths.getD idx []).length % 2 ^ 16 + 1)) % 2 ^ 32
          pathsBuf := fun i =>
            if i = (st.paths_offset +
                ((wd.paths.getD idx []).length % 2 ^ 16 + 1)) % 2 ^ 32 - 1 then 0
            else if st.paths_offset ≤ i ∧ i < st.paths_offset + (wd.paths.getD idx []).length
              then (wd.paths.getD idx []).getD (i - st.paths_offset) 0
            else st.pathsBuf i }
      else none

/-- The emission loop over all resources, in input order. -/
def emit_loop (σ : Type) (ops : DataWriterOps σ) (wd : HailstormWriteData)
    (chunks : List HailstormChunk) (refs : List HailstormWriteChunkRef) :
    Nat → Nat → EmitState σ → Option (EmitState σ)
  | _, 0, st => some st
  | idx, n + 1, st =>
    match emit_step σ ops wd chunks refs idx st with
    | none => none
    | some st' => emit_loop σ ops wd chunks refs (idx + 1) n st'

/-- The chunks whose custom-write is invoked (source lines 495-501): the
loop stops at the first chunk whose type is not 0, so only the leading run
of AppSpecific chunks is visited. -/
def custom_chunks (chunks : List HailstormChunk) : List HailstormChunk :=
  chunks.takeWhile fun c => c.type = 0

/-- Drive the custom-chunk writes, aborting on the first failure. -/
def write_custom_list (σ : Type) (ops : DataWriterOps σ) (wd : HailstormWriteData) :
    List HailstormChunk → σ → Option σ
  | [], s => some s
  | c :: cs, s =>
    match ops.write_custom_chunk_data s wd c with
    | (s', true) => write_custom_list σ ops wd cs s'
    | (_, false) => none

/-- The emission phase of `write_cluster_internal` (source lines 401-509):
the three header writes, the per-resource loop, the custom-chunk writes,
the zero-fill of the path scratch tail, and the final path-block and
resource-table writes.  Returns the sink state and the resource table. -/
def emit_cluster (σ : Type) (ops : DataWriterOps σ) (wd : HailstormWriteData)
    (pr : PlanResult) (s0 : σ) : Option (σ × List HailstormResource) :=
  match ops.write_header s0 (headerBytes pr.header) 64 0 with
  | (_, false) => none
  | (s1, true) =>
  match ops.write_header s1 (pathsBytes pr.paths_info) 8 pr.offsets.paths_info with
  | (_, false) => none
  | (s2, true) =>
  match ops.write_header s2 (chunkTableBytes pr.chunks) (32 * pr.chunks.length)
    pr.offsets.chunks with
  | (_, false) => none
  | (s3, true) =>
  match emit_loop σ ops wd pr.chunks pr.refs 0 wd.paths.length
    { sink := s3
      resources := []
      sizes := pr.sizes.map fun _ => 0
      metatracker := List.replicate wd.metadata_mapping.length Constant_U32Max
      paths_offset := 0
      pathsBuf := fun _ => 0 } with
  | none => none
  | some st1 =>
  match write_custom_list σ ops wd (custom_chunks pr.chunks) st1.sink with
  | none => none
  | some s4 =>
  match ops.write_header s4
    (fun i => if st1.paths_offset ≤ i ∧ i < pr.paths_info.size then 0 else st1.pathsBuf i)
    pr.paths_info.size pr.offsets.paths_data with
  | (_, false) => none
  | (s5, true) =>
  match ops.write_header s5 (resourceTableBytes st1.resources)
    (36 * wd.paths.length) pr.offsets.resources with
  | (_, false) => none
  | (s6, true) => some (s6, st1.resources)

/-- Shallow embedding of the synchronous `write_cluster`: plan, then emit
into an owned zero-initialized buffer of `final_size` bytes.  `none` is a
failed assertion, exhausted fuel or an aborted write (the source then
returns an empty `Memory`). -/
def write_cluster (fuel : Nat) (params : HailstormWriteParams)
    (wd : HailstormWriteData) : Option ((Nat → Nat) × Nat) :=
  match plan_cluster fuel params wd with
  | none => none
  | some pr =>
    match emit_cluster (Nat → Nat) (syncOps params pr.final_size) wd pr (fun _ => 0) with
    | none => none
    | some (buf, _) => some (buf, pr.final_size)

/-- The asynchronous run of `write_cluster_internal`: same planning and
emission, with every write forwarded to the caller's callbacks. -/
def write_cluster_internal_async (fuel : Nat) (ap : HailstormAsyncWriteParams)
    (wd : HailstormWriteData) : Option Unit :=
  match plan_cluster fuel ap.base_params wd with
  | none => none
  | some pr =>
    match emit_cluster Unit (asyncOps ap) wd pr () with
    | none => none
    | some _ => some ()

/-- Shallow embedding of `write_cluster_async` (source lines 525-536): the
internal task is started and its outcome is discarded — the function
returns `true` unconditionally. -/
def write_cluster_async (fuel : Nat) (ap : HailstormAsyncWriteParams)
    (wd : HailstormWriteData) : Bool :=
  let _ := write_cluster_internal_async fuel ap wd
  true

/-- A roomy mixed chunk (type 3) used as the single initial chunk of several
concrete runs. -/
def mixedChunk1024 : HailstormChunk := ⟨0, 1024, 8, 3, 1, 0, 0, 0, 0⟩

/-- Write params for the C2 run: one mixed chunk, trivial heuristics. -/
def c2params : HailstormWriteParams := {
  initial_chunks := [mixedChunk1024]
  fn_select_chunk := fun _ _ _ => ⟨0, 0, false, false⟩
  fn_create_chunk := fun _ _ base => base
  fn_resource_write := fun _ _ => fun _ => 0
  fn_custom_chunk_write := fun _ _ => (true, fun _ => 0) }

/-- Write data for the C2 run: one resource whose blob has 8 bytes but whose
metadata record has 4 bytes. -/
def c2wd : HailstormWriteData := {
  paths := [[97]]
  data := [⟨false, 8, 4, fun _ => 9⟩]
  metadata := [⟨false, 4, 8, fun _ => 7⟩]
  metadata_mapping := []
  custom0 := 0
  custom1 := 0 }

/-- C2: the emitter records `meta_size = 8` — the blob's size — for a
resource whose metadata record has size 4, because the first-occurrence
branch reads `write_data.data[idx]` instead of the metadata view (source
lines 445-456); the estimation pass uses `meta.size`, so the two passes
disagree. -/
theorem c2_meta_size_uses_data_size :
    ((plan_cluster 2 c2params c2wd).bind fun pr =>
      (emit_cluster (Nat → Nat) (syncOps c2params pr.final_size) c2wd pr fun _ => 0).map
        fun out => ((out.2.getD 0 emptyResource).meta_size,
          (c2wd.metadata.getD 0 emptyDataView).size)) = some (8, 4) ∧
    (8 : Nat) ≠ 4 :=
  ⟨by decide, by decide⟩

/-- Two initial mixed chunks for the C4 run. -/
def c4params : HailstormWriteParams := {
  initial_chunks := [mixedChunk1024, mixedChunk1024]
  fn_select_chunk := fun _ d _ =>
    if d.size = 2 then ⟨1, 1, false, false⟩ else ⟨0, 0, false, false⟩
  fn_create_chunk := fun _ _ base => base
  fn_resource_write := fun _ _ => fun _ => 0
  fn_custom_chunk_write := fun _ _ => (true, fun _ => 0) }

/-- Write data for the C4 run: three resources; resources 0 and 2 share
metadata record 1, resource 1 uses metadata record 0 and lands in chunk 1. -/
def c4wd : HailstormWriteData := {
  paths := [[97], [98], [99]]
  data := [⟨false, 1, 1, fun _ => 1⟩, ⟨false, 2, 1, fun _ => 2⟩, ⟨false, 3, 1, fun _ => 3⟩]
  metadata := [⟨false, 4, 8, fun _ => 4⟩, ⟨false, 4, 8, fun _ => 5⟩]
  metadata_mapping := [1, 0, 1]
  custom0 := 0
  custom1 := 0 }

/-- C4: resources 0 and 2 share mapping index 1, yet the written cluster
gives them different `meta_chunk` values (0 and 1): the planner's override
reads `refs[metadata_idx]` — indexed by the metadata record — instead of the
tracker's recorded first resource (source line 173), so resource 2 inherits
resource 1's metadata chunk.  Their `meta_offset`/`meta_size` still match. -/
theorem c4_shared_meta_chunk_mismatch :
    ((plan_cluster 4 c4params c4wd).bind fun pr =>
      (emit_cluster (Nat → Nat) (syncOps c4params pr.final_size) c4wd pr fun _ => 0).map
        fun out =>
          ((out.2.getD 0 emptyResource).meta_chunk, (out.2.getD 2 emptyResource).meta_chunk,
           (out.2.getD 0 emptyResource).meta_offset, (out.2.getD 2 emptyResource).meta_offset,
           (out.2.getD 0 emptyResource).meta_size, (out.2.getD 2 emptyResource).meta_size)) =
      some (0, 1, 0, 0, 1, 1) ∧
    c4wd.metadata_mapping.getD 0 0 = c4wd.metadata_mapping.getD 2 0 ∧
    (0 : Nat) ≠ 1 :=
  ⟨by decide, by decide, by decide⟩

/-- Async params for the C5 run: the sink rejects every header write. -/
def c5ap : HailstormAsyncWriteParams := {
  base_params := c2params
  fn_async_open := fun _ => true
  fn_async_write_header := fun _ _ => false
  fn_async_write_metadata := fun _ _ => true
  fn_async_write_resource := fun _ _ => true
  fn_async_write_custom_chunk := fun _ => true
  fn_async_close := fun _ => true }

/-- Empty write data for the C5 and C6 runs. -/
def emptyWriteData : HailstormWriteData :=
  { paths := [], data := [], metadata := [], metadata_mapping := [], custom0 := 0, custom1 := 0 }

/-- C5: a sink whose very first write reports failure makes the internal
emission abort, yet `write_cluster_async` still returns `true` — the source
discards the task and ends with an unconditional `return true` (lines
534-535). -/
theorem c5_async_returns_true_on_failure :
    write_cluster_async 2 c5ap emptyWriteData = true ∧
    write_cluster_internal_async 2 c5ap emptyWriteData = none :=
  ⟨rfl, by decide⟩

/-- Params for the C6 run: an AppSpecific (type 0) chunk placed after a
mixed chunk in the initial chunk list. -/
def c6params : HailstormWriteParams := {
  initial_chunks := [⟨0, 64, 8, 3, 1, 0, 0, 0, 0⟩, ⟨0, 64, 8, 0, 1, 0, 0, 0, 0⟩]
  fn_select_chunk := fun _ _ _ => ⟨0, 0, false, false⟩
  fn_create_chunk := fun _ _ base => base
  fn_resource_write := fun _ _ => fun _ => 0
  fn_custom_chunk_write := fun _ _ => (true, fun _ => 0) }

/-- C6: the cluster contains a type 0 chunk at index 1, but the custom-chunk
write loop visits only the leading run of type 0 chunks — it stops at the
type 3 chunk at index 0, so no custom write is invoked at all, although the
write itself succeeds. -/
theorem c6_custom_chunks_prefix_only :
    ((plan_cluster 1 c6params emptyWriteData).map fun pr =>
      (custom_chunks pr.chunks, (pr.chunks.getD 1 emptyChunk).type, pr.chunks.length)) =
      some ([], 0, 2) ∧
    (write_cluster 1 c6params emptyWriteData).isSome = true :=
  ⟨by decide, by decide⟩

/-- The single chunk record of the C1 counterexample (mixed, empty). -/
def c1chunk : HailstormChunk := ⟨0, 0, 8, 3, 1, 0, 0, 0, 0⟩

/-- Params with `n` initial mixed chunks, used for the C1 counterexample. -/
def c1paramsN (n : Nat) : HailstormWriteParams := {
  initial_chunks := List.replicate n c1chunk
  fn_select_chunk := fun _ _ _ => ⟨0, 0, false, false⟩
  fn_create_chunk := fun _ _ base => base
  fn_resource_write := fun _ _ => fun _ => 0
  fn_custom_chunk_write := fun _ _ => (true, fun _ => 0) }

/-- Params for the C1 counterexample: 65536 initial chunks. -/
def c1params : HailstormWriteParams := c1paramsN 65536

/-- Reading below the written range leaves the buffer unchanged. -/
theorem writeBytes_below (buf : Nat → Nat) (off len : Nat) (src : Nat → Nat) (p : Nat)
    (h : p < off) : writeBytes buf off len src p = buf p := by
  unfold writeBytes
  rw [if_neg (by omega)]

/-- Reading at or above the end of the written range leaves the buffer
unchanged. -/
theorem writeBytes_above (buf : Nat → Nat) (off len : Nat) (src : Nat → Nat) (p : Nat)
    (h : off + len ≤ p) : writeBytes buf off len src p = buf p := by
  unfold writeBytes
  rw [if_neg (by omega)]

/-- Reading inside the written range yields the source bytes. -/
theorem writeBytes_in (buf : Nat → Nat) (off len : Nat) (src : Nat → Nat) (p : Nat)
    (h1 : off ≤ p) (h2 : p < off + len) : writeBytes buf off len src p = src (p - off) := by
  unfold writeBytes
  rw [if_pos ⟨h1, h2⟩]

/-- Two buffers that agree on a range decode to the same little-endian
value. -/
theorem readLE_congr (b c : Nat → Nat) (p q : Nat) :
    ∀ k, (∀ i, i < k → b (p + i) = c (q + i)) → readLE b p k = readLE c q k := by
  intro k
  induction k generalizing p q with
  | zero => intro _; rfl
  | succ m ih =>
    intro h
    unfold readLE
    rw [show b p = c q from by simpa using h 0 (by omega)]
    have h3 : readLE b (p + 1) m = readLE c (q + 1) m := by
      refine ih (p + 1) (q + 1) fun i hi => ?_
      have h2 := h (i + 1) (by omega)
      have e1 : p + (i + 1) = p + 1 + i := by omega
      have e2 : q + (i + 1) = q + 1 + i := by omega
      rw [e1, e2] at h2
      exact h2
    rw [h3]

/-- Resizing `n` identical chunks against `n` zero used-byte slots. -/
theorem resize_chunks_replicate (n : Nat) (c : HailstormChunk) :
    resize_chunks (List.replicate n c) (List.replicate n 0) =
      List.replicate n { c with size := align_to64 0 c.align } := by
  induction n with
  | zero => rfl
  | succ m ih => simp [List.replicate_succ, resize_chunks, ih]

/-- Chunk placement preserves the chunk count. -/
theorem length_place_chunks (l : List HailstormChunk) :
    ∀ off, (place_chunks off l).length = l.length := by
  induction l with
  | nil => intro off; rfl
  | cons c cs ih => intro off; simp [place_chunks, ih]

/-- When the first chunk is not AppSpecific, no chunk receives a custom
write. -/
theorem custom_chunks_cons_ne (off : Nat) (c : HailstormChunk) (cs : List HailstormChunk)
    (h : c.type ≠ 0) : custom_chunks (place_chunks off (c :: cs)) = [] := by
  simp [place_chunks, custom_chunks, List.takeWhile_cons, h]

/-- No chunk of a placed replicate list of non-AppSpecific chunks receives a
custom write. -/
theorem custom_chunks_place_replicate (off n : Nat) (c : HailstormChunk) (h : c.type ≠ 0) :
    custom_chunks (place_chunks off (List.replicate n c)) = [] := by
  cases n with
  | zero => rfl
  | succ m =>
    rw [List.replicate_succ]
    exact custom_chunks_cons_ne off c _ h

/-- The plan produced for the C1 counterexample run with `n` initial chunks
and no resources. -/
def c1prN (n : Nat) : PlanResult := {
  header := {
    magic := Constant_HailstormMagic
    header_version := Constant_HailstormHeaderVersionV0
    header_size := (cluster_size_info 0 (List.replicate n c1chunk) 8).1.paths_data
    offset_next := (cluster_size_info 0 (List.replicate n c1chunk) 8).2
    offset_data := (cluster_size_info 0 (List.replicate n c1chunk) 8).1.data
    count_chunks := n % 2 ^ 16
    count_resources := 0
    app_custom0 := 0
    app_custom1 := 0 }
  paths_info := ⟨(cluster_size_info 0 (List.replicate n c1chunk) 8).1.paths_data % 2 ^ 32, 8⟩
  chunks := place_chunks (cluster_size_info 0 (List.replicate n c1chunk) 8).1.data
    (List.replicate n c1chunk)
  refs := []
  sizes := List.replicate n 0
  offsets := (cluster_size_info 0 (List.replicate n c1chunk) 8).1
  final_size := (cluster_size_info 0 (List.replicate n c1chunk) 8).2
  requires_cb := false }

/-- Planning the C1 counterexample run, for a symbolic chunk count. -/
theorem c1_plan_general (n : Nat) (hn : n ≠ 0) :
    plan_cluster 1 (c1paramsN n) emptyWriteData = some (c1prN n) := by
  have h0 : align_to64 0 8 = 0 := by decide
  have hresize := resize_chunks_replicate n c1chunk
  simp only [c1chunk] at hresize
  rw [h0] at hresize
  rw [show (⟨0, 0, 8, 3, 1, 0, 0, 0, 0⟩ : HailstormChunk) = c1chunk from rfl] at hresize
  unfold plan_cluster prepare_cluster_info
  simp only [c1paramsN, emptyWriteData, List.length_replicate, List.length_nil,
    List.replicate_zero, estimate_loop]
  rw [if_neg hn]
  rw [if_neg (show ¬ (0 : Nat) < 0 from by omega)]
  dsimp only
  rw [List.length_replicate, hresize, show align_to32 8 8 % 2 ^ 32 = 8 from by decide,
    List.length_replicate, Nat.zero_mod]
  unfold c1prN
  rfl

/-- Emission over an empty resource list with no leading AppSpecific chunk:
the five header-region writes in order, and an empty resource table. -/
theorem emit_cluster_sync_empty (params : HailstormWriteParams) (pr : PlanResult)
    (wd : HailstormWriteData) (hpaths : wd.paths = []) (hmap : wd.metadata_mapping = [])
    (hcustom : custom_chunks pr.chunks = []) (s0 : Nat → Nat) :
    emit_cluster (Nat → Nat) (syncOps params pr.final_size) wd pr s0 =
      some (writeBytes (writeBytes (writeBytes (writeBytes (writeBytes s0
        0 64 (headerBytes pr.header))
        pr.offsets.paths_info 8 (pathsBytes pr.paths_info))
        pr.offsets.chunks (32 * pr.chunks.length) (chunkTableBytes pr.chunks))
        pr.offsets.paths_data pr.paths_info.size
          (fun i => if 0 ≤ i ∧ i < pr.paths_info.size then 0 else 0))
        pr.offsets.resources (36 * 0) (resourceTableBytes []), []) := by
  unfold emit_cluster
  rw [hpaths, hmap]
  simp only [syncOps, List.length_nil, emit_loop, write_custom_list, hcustom]

/-- Unfolding of `write_cluster` once the plan is known. -/
theorem write_cluster_eq (fuel : Nat) (params : HailstormWriteParams)
    (wd : HailstormWriteData) (pr : PlanResult)
    (h : plan_cluster fuel params wd = some pr) :
    write_cluster fuel params wd =
      match emit_cluster (Nat → Nat) (syncOps params pr.final_size) wd pr (fun _ => 0) with
      | none => none
      | some (buf, _) => some (buf, pr.final_size) := by
  unfold write_cluster
  rw [h]

/-- Sum of a replicated list of naturals. -/
theorem sum_replicate_nat (n x : Nat) : (List.replicate n x).sum = n * x := by
  induction n with
  | zero => simp
  | succ m ih =>
    rw [List.replicate_succ, List.sum_cons, ih]
    ring

/-- Concrete layout of the C1 counterexample cluster: 65536 empty chunks. -/
theorem c1_offs_eval :
    cluster_size_info 0 (List.replicate 65536 c1chunk) 8 =
      (⟨72, 2097224, 2097232, 64, 2097224⟩, 2097232) := by
  unfold cluster_size_info
  rw [List.length_replicate, List.map_replicate, sum_replicate_nat]
  norm_num [c1chunk]
  rw [show align_to64 64 4 = 64 from by decide]
  norm_num
  rw [show align_to64 72 8 = 72 from by decide]
  norm_num
  rw [show align_to64 2097224 4 = 2097224 from by decide,
    show align_to64 2097224 8 = 2097224 from by decide]
  norm_num

/-- The header of the C1 counterexample cluster: the `count_chunks` field is
`uint16_t(65536) = 0`. -/
theorem c1_header_eval :
    (c1prN 65536).header =
      ⟨Constant_HailstormMagic, Constant_HailstormHeaderVersionV0, 2097224, 2097232, 2097232,
        0, 0, 0, 0⟩ := by
  unfold c1prN
  rw [c1_offs_eval]
  dsimp only
  norm_num

/-- The layout offsets of the C1 counterexample cluster. -/
theorem c1_offsets_eval :
    (c1prN 65536).offsets = ⟨72, 2097224, 2097232, 64, 2097224⟩ := by
  unfold c1prN
  rw [c1_offs_eval]

/-- The path descriptor of the C1 counterexample cluster. -/
theorem c1_pathsinfo_eval : (c1prN 65536).paths_info = ⟨2097224, 8⟩ := by
  unfold c1prN
  rw [c1_offs_eval]
  dsimp only
  norm_num

/-- The total size of the C1 counterexample cluster. -/
theorem c1_final_eval : (c1prN 65536).final_size = 2097232 := by
  unfold c1prN
  rw [c1_offs_eval]

/-- No custom-chunk write happens in the C1 counterexample run. -/
theorem c1_custom_eval : custom_chunks (c1prN 65536).chunks = [] := by
  unfold c1prN
  exact custom_chunks_place_replicate _ _ _ (by decide)

/-- The buffer produced by the C1 counterexample run. -/
theorem c1_write_eval :
    write_cluster 1 c1params emptyWriteData =
      some (writeBytes (writeBytes (writeBytes (writeBytes (writeBytes (fun _ => 0)
        0 64 (headerBytes (c1prN 65536).header))
        (c1prN 65536).offsets.paths_info 8 (pathsBytes (c1prN 65536).paths_info))
        (c1prN 65536).offsets.chunks (32 * (c1prN 65536).chunks.length)
          (chunkTableBytes (c1prN 65536).chunks))
        (c1prN 65536).offsets.paths_data (c1prN 65536).paths_info.size
          (fun i => if 0 ≤ i ∧ i < (c1prN 65536).paths_info.size then 0 else 0))
        (c1prN 65536).offsets.resources (36 * 0) (resourceTableBytes []),
        (c1prN 65536).final_size) := by
  have hplan : plan_cluster 1 c1params emptyWriteData = some (c1prN 65536) := by
    unfold c1params
    exact c1_plan_general 65536 (by decide)
  rw [write_cluster_eq 1 c1params emptyWriteData (c1prN 65536) hplan,
    emit_cluster_sync_empty c1params (c1prN 65536) emptyWriteData rfl rfl c1_custom_eval]

/-- The written buffer of the C1 counterexample run, as produced by the
synchronous data writer. -/
def c1buf : Nat → Nat :=
  writeBytes (writeBytes (writeBytes (writeBytes (writeBytes (fun _ => 0)
    0 64 (headerBytes (c1prN 65536).header))
    (c1prN 65536).offsets.paths_info 8 (pathsBytes (c1prN 65536).paths_info))
    (c1prN 65536).offsets.chunks (32 * (c1prN 65536).chunks.length)
      (chunkTableBytes (c1prN 65536).chunks))
    (c1prN 65536).offsets.paths_data (c1prN 65536).paths_info.size
      (fun i => if 0 ≤ i ∧ i < (c1prN 65536).paths_info.size then 0 else 0))
    (c1prN 65536).offsets.resources (36 * 0) (resourceTableBytes [])

/-- The literal header record of the C1 counterexample cluster. -/
def c1hdr : HailstormHeader :=
  ⟨Constant_HailstormMagic, Constant_HailstormHeaderVersionV0, 2097224, 2097232, 2097232,
    0, 0, 0, 0⟩

/-- Below byte 64, the C1 buffer is exactly the serialized header. -/
theorem c1buf_head (p : Nat) (hp : p < 64) : c1buf p = headerBytes c1hdr p := by
  unfold c1buf
  rw [c1_offsets_eval, c1_pathsinfo_eval, c1_header_eval]
  dsimp only
  rw [writeBytes_below _ _ _ _ p (by omega),
    writeBytes_below _ _ _ _ p (by omega),
    writeBytes_below _ _ _ _ p (by omega),
    writeBytes_below _ _ _ _ p (by omega),
    writeBytes_in _ _ _ _ p (by omega) (by omega), Nat.sub_zero]
  rfl

/-- The magic field decoded from the C1 buffer. -/
theorem c1buf_magic : readLE c1buf 0 4 = Constant_HailstormMagic := by
  rw [readLE_congr c1buf (headerBytes c1hdr) 0 0 4
    (fun i hi => c1buf_head (0 + i) (by omega))]
  decide

/-- The header-version field decoded from the C1 buffer. -/
theorem c1buf_version : readLE c1buf 4 4 = Constant_HailstormHeaderVersionV0 := by
  rw [readLE_congr c1buf (headerBytes c1hdr) 4 4 4
    (fun i hi => c1buf_head (4 + i) (by omega))]
  decide

/-- The header-size field decoded from the C1 buffer. -/
theorem c1buf_hsize : readLE c1buf 8 8 = 2097224 := by
  rw [readLE_congr c1buf (headerBytes c1hdr) 8 8 8
    (fun i hi => c1buf_head (8 + i) (by omega))]
  decide

/-- The chunk-count field decoded from the C1 buffer is zero: the writer
truncated 65536 to `uint16_t`. -/
theorem c1buf_count : readLE c1buf 36 4 = 0 := by
  rw [readLE_congr c1buf (headerBytes c1hdr) 36 36 4
    (fun i hi => c1buf_head (36 + i) (by omega))]
  decide

/-- Reading back the C1 buffer fails with `E_EmptyPack`. -/
theorem c1_read_eq :
    (read_header false 2097232 c1buf emptyHailstormData).1 = Result.E_EmptyPack := by
  unfold read_header
  rw [if_neg (by norm_num)]
  rw [if_neg (by norm_num)]
  rw [if_neg (by rw [c1buf_magic, c1buf_version, c1buf_hsize]; norm_num [Constant_1GiB])]
  rw [if_neg (by rw [c1buf_hsize]; norm_num)]
  rw [if_pos (by simp only [decodeHeader]; exact c1buf_count)]

/-- C1: the round-trip fails. A `write_data` with 65536 chunk definitions and
no resources is accepted by `write_cluster` (the plan places all 65536
chunks), but the emitted header stores `uint16_t(65536) = 0` in the 32-bit
`count_chunks` field, so `read_header` on the produced buffer returns
`E_EmptyPack`, not `Success`. -/
theorem c1_truncation_counterexample :
    ((write_cluster 1 c1params emptyWriteData).map
        (fun m => (read_header false m.2 m.1 emptyHailstormData).1)) =
      some Result.E_EmptyPack ∧
    Result.E_EmptyPack ≠ Result.Success ∧
    ((plan_cluster 1 c1params emptyWriteData).map (fun pr => pr.chunks.length)) =
      some 65536 ∧
    ((plan_cluster 1 c1params emptyWriteData).map
        (fun pr => pr.header.count_chunks)) = some 0 := by
  have hplan : plan_cluster 1 c1params emptyWriteData = some (c1prN 65536) := by
    unfold c1params
    exact c1_plan_general 65536 (by decide)
  have hw : write_cluster 1 c1params emptyWriteData = some (c1buf, 2097232) := by
    rw [c1_write_eval, c1_final_eval]
    rfl
  have hlen : (c1prN 65536).chunks.length = 65536 := by
    unfold c1prN
    dsimp only
    rw [length_place_chunks, List.length_replicate]
  refine ⟨?_, by decide, ?_, ?_⟩
  case _ =>
    rw [hw, Option.map_some']
    dsimp only
    rw [c1_read_eq]
  case _ =>
    rw [hplan, Option.map_some']
    rw [hlen]
  case _ =>
    rw [hplan, Option.map_some']
    rw [c1_header_eval]

/-- C3 counterexample: a successful plan of one chunk and no resources has
`header_size = 104` (the offset of the path data block) while the first
chunk's payload starts at `offset_data = 112`, so neither
`header_size = first chunk offset` nor `offset_data = header_size` holds. -/
theorem c3_header_size_counterexample :
    ((plan_cluster 1 (c1paramsN 1) emptyWriteData).map
        (fun pr => (pr.header.header_size, pr.header.offset_data,
          (pr.chunks.headD emptyChunk).offset))) = some (104, 112, 112) ∧
    (104 : Nat) ≠ 112 := by
  exact ⟨by decide, by decide⟩

/-- The plan produced for one empty chunk and no resources. -/
def c3pr : PlanResult := {
  header := ⟨Constant_HailstormMagic, Constant_HailstormHeaderVersionV0, 104, 112, 112,
    1, 0, 0, 0⟩
  paths_info := ⟨104, 8⟩
  chunks := [⟨112, 0, 8, 3, 1, 0, 0, 0, 0⟩]
  refs := []
  sizes := [0]
  offsets := ⟨72, 104, 112, 64, 104⟩
  final_size := 112
  requires_cb := false }

/-- C3 (amended): in every successful plan, `header_size` is the absolute
offset of the path data block (`offsets.paths_data`), `offset_data` is the
absolute offset of the first byte of the first chunk's payload
(`offsets.data`, the offset assigned to the first chunk), and
`offset_data = header_size + paths_info.size`. -/
theorem c3_layout (fuel : Nat) (params : HailstormWriteParams) (wd : HailstormWriteData)
    (pr : PlanResult) (h : plan_cluster fuel params wd = some pr) :
    pr.header.header_size = pr.offsets.paths_data ∧
    pr.header.offset_data = pr.offsets.data ∧
    pr.offsets.data = pr.header.header_size + pr.paths_info.size ∧
    ∀ c cs, pr.chunks = c :: cs → c.offset = pr.offsets.data := by
  unfold plan_cluster at h
  cases hprep : prepare_cluster_info fuel params wd with
  | none =>
    rw [hprep] at h
    exact absurd h (by simp)
  | some st =>
    rw [hprep] at h
    dsimp only at h
    simp only [Option.some.injEq] at h
    subst h
    refine ⟨rfl, rfl, ?_, ?_⟩
    case _ =>
      simp only [cluster_size_info]
    case _ =>
      intro c cs hc
      dsimp only at hc
      cases hch : st.chunks with
      | nil =>
        rw [hch] at hc
        simp [place_chunks] at hc
      | cons d ds =>
        rw [hch] at hc
        rw [place_chunks] at hc
        injection hc with h1 h2
        rw [← h1]

/-- The layout relations hold at a concrete successful plan. -/
theorem c3_layout_witness :
    plan_cluster 1 (c1paramsN 1) emptyWriteData = some c3pr ∧
    (c3pr.header.header_size = c3pr.offsets.paths_data ∧
      c3pr.header.offset_data = c3pr.offsets.data ∧
      c3pr.offsets.data = c3pr.header.header_size + c3pr.paths_info.size ∧
      ∀ c cs, c3pr.chunks = c :: cs → c.offset = c3pr.offsets.data) :=
  ⟨by decide, c3_layout 1 (c1paramsN 1) emptyWriteData c3pr (by decide)⟩

end Hailstorm
